import Mathlib

/-!
Verification development for the two chat clients of this repository
(`src/frontend/src/App.jsx` and the second unnamed client file).

The JavaScript runtime values that the clients manipulate are embedded as
the inductive type `JsValue`; `JSON.parse` is embedded as a total,
fuel-based recursive-descent parser (`jsonParse`) implementing the JSON
grammar; the two regular expressions used by `tryParsePubMed` are embedded
as explicit list-scanning functions whose behavior matches the regex
semantics (first fenced block, lazy interior; first brace to last brace,
greedy).  The `send` functions of the two clients are embedded as pure
state-transition functions parameterized by the network outcome.

Conventions:
- JS `undefined` is the constructor `JsValue.undef`; property access that
  would yield `undefined` returns it.
- JSON numbers are kept as their source text (`JsValue.num raw`); no claim
  of the specification depends on floating-point arithmetic or on number
  re-formatting.
- Host-engine exception messages (the `SyntaxError` text of a failed
  `JSON.parse`, the `TypeError` raised by reading a property of `null`, a
  network failure message) are not determined by the repository's code, so
  the `send` embeddings take them as parameters.
-/

/-- A JavaScript runtime value, as far as the clients observe them. -/
inductive JsValue where
  | undef
  | null
  | bool (b : Bool)
  | num (raw : String)
  | str (s : String)
  | arr (elems : List JsValue)
  | obj (fields : List (String × JsValue))

/-- Whitespace for JS `String.prototype.trim` and the regex class `\s`. -/
def jsWsChar (c : Char) : Bool :=
  c == ' ' || c == '\t' || c == '\n' || c == '\r' ||
  c.toNat == 11 || c.toNat == 12 || c.toNat == 160 ||
  c.toNat == 0xFEFF || c.toNat == 0x2028 || c.toNat == 0x2029

/-- JS `String.prototype.trim` on a character list. -/
def trimChars (cs : List Char) : List Char :=
  ((cs.dropWhile jsWsChar).reverse.dropWhile jsWsChar).reverse

/-- JS `String.prototype.trim`. -/
def jsTrimS (s : String) : String :=
  String.mk (trimChars s.data)

/-- JSON insignificant whitespace (RFC 8259: space, tab, LF, CR). -/
def jsonWs (c : Char) : Bool :=
  c == ' ' || c == '\t' || c == '\n' || c == '\r'

def skipWs (cs : List Char) : List Char := cs.dropWhile jsonWs

def hexVal (c : Char) : Option Nat :=
  if '0' ≤ c ∧ c ≤ '9' then some (c.toNat - 48)
  else if 'a' ≤ c ∧ c ≤ 'f' then some (c.toNat - 87)
  else if 'A' ≤ c ∧ c ≤ 'F' then some (c.toNat - 55)
  else none

/-- Body of a JSON string literal, after the opening quote has been
consumed.  Returns the decoded characters and the rest of the input.
A `\uXXXX` escape denoting a value that is not a valid Unicode scalar
(a lone surrogate) decodes to NUL; no claim involves such input. -/
def parseStrBody : Nat → List Char → Option (List Char × List Char)
  | 0, _ => none
  | _, [] => none
  | fuel + 1, c :: rest =>
    if c == '\"' then some ([], rest)
    else if c == '\\' then
      match rest with
      | [] => none
      | e :: rest2 =>
        if e == '\"' || e == '\\' || e == '/' then
          (parseStrBody fuel rest2).map (fun p => (e :: p.1, p.2))
        else if e == 'b' then
          (parseStrBody fuel rest2).map (fun p => (Char.ofNat 8 :: p.1, p.2))
        else if e == 'f' then
          (parseStrBody fuel rest2).map (fun p => (Char.ofNat 12 :: p.1, p.2))
        else if e == 'n' then
          (parseStrBody fuel rest2).map (fun p => ('\n' :: p.1, p.2))
        else if e == 'r' then
          (parseStrBody fuel rest2).map (fun p => ('\r' :: p.1, p.2))
        else if e == 't' then
          (parseStrBody fuel rest2).map (fun p => ('\t' :: p.1, p.2))
        else if e == 'u' then
          match rest2 with
          | h1 :: h2 :: h3 :: h4 :: rest3 =>
            match hexVal h1, hexVal h2, hexVal h3, hexVal h4 with
            | some a, some b, some c2, some d =>
              (parseStrBody fuel rest3).map
                (fun p => (Char.ofNat (((a * 16 + b) * 16 + c2) * 16 + d) :: p.1, p.2))
            | _, _, _, _ => none
          | _ => none
        else none
    else if c.toNat < 32 then none
    else (parseStrBody fuel rest).map (fun p => (c :: p.1, p.2))

/-- JSON number grammar: `-? (0 | [1-9][0-9]*) (. [0-9]+)? ([eE][+-]?[0-9]+)?`.
Returns the raw number text and the rest of the input.  A fraction or an
exponent that is not well-formed is left unconsumed, so that the caller's
trailing-input check rejects the text, exactly as `JSON.parse` does. -/
def parseNum (cs : List Char) : Option (List Char × List Char) :=
  let (neg, cs1) :=
    match cs with
    | c :: r => if c == '-' then ([c], r) else (([] : List Char), cs)
    | [] => (([] : List Char), cs)
  match cs1 with
  | [] => none
  | d :: r =>
    if !d.isDigit then none
    else
      let (ip, cs2) :=
        if d == '0' then ([d], r)
        else (d :: r.takeWhile Char.isDigit, r.dropWhile Char.isDigit)
      let (fp, cs3) :=
        match cs2 with
        | p :: p2 :: r2 =>
          if p == '.' && p2.isDigit then
            (p :: p2 :: r2.takeWhile Char.isDigit, r2.dropWhile Char.isDigit)
          else (([] : List Char), cs2)
        | _ => (([] : List Char), cs2)
      let (ep, cs4) :=
        match cs3 with
        | e :: r3 =>
          if e == 'e' || e == 'E' then
            let (sg, r4) :=
              match r3 with
              | s :: r5 => if s == '+' || s == '-' then ([s], r5) else (([] : List Char), r3)
              | [] => (([] : List Char), r3)
            match r4 with
            | d2 :: _ =>
              if d2.isDigit then
                (e :: (sg ++ r4.takeWhile Char.isDigit), r4.dropWhile Char.isDigit)
              else (([] : List Char), cs3)
            | [] => (([] : List Char), cs3)
          else (([] : List Char), cs3)
        | [] => (([] : List Char), cs3)
      some (neg ++ ip ++ fp ++ ep, cs4)

/-- Insert a key into an object under construction: a duplicate key
overwrites the value in place, keeping first-insertion order, exactly as
JS object construction does. -/
def objInsert (fs : List (String × JsValue)) (k : String) (v : JsValue) :
    List (String × JsValue) :=
  if fs.any (fun p => p.1 == k) then
    fs.map (fun p => if p.1 == k then (k, v) else p)
  else fs ++ [(k, v)]

mutual

/-- JSON value parser (recursive descent, fuel-based). -/
def parseVal : Nat → List Char → Option (JsValue × List Char)
  | 0, _ => none
  | fuel + 1, cs =>
    match skipWs cs with
    | [] => none
    | c :: rest =>
      if c == Char.ofNat 123 then parseObjRest fuel rest
      else if c == '[' then parseArrRest fuel rest
      else if c == '\"' then
        (parseStrBody fuel rest).map (fun p => (JsValue.str (String.mk p.1), p.2))
      else if c == 't' then
        if rest.take 3 = ['r', 'u', 'e'] then some (JsValue.bool true, rest.drop 3) else none
      else if c == 'f' then
        if rest.take 4 = ['a', 'l', 's', 'e'] then some (JsValue.bool false, rest.drop 4) else none
      else if c == 'n' then
        if rest.take 3 = ['u', 'l', 'l'] then some (JsValue.null, rest.drop 3) else none
      else
        match parseNum (c :: rest) with
        | some p => some (JsValue.num (String.mk p.1), p.2)
        | none => none

/-- After the opening brace of a JSON object. -/
def parseObjRest : Nat → List Char → Option (JsValue × List Char)
  | 0, _ => none
  | fuel + 1, cs =>
    match skipWs cs with
    | [] => none
    | c :: rest =>
      if c == Char.ofNat 125 then some (JsValue.obj [], rest)
      else parseObjItems fuel [] (c :: rest)

/-- One or more `"key": value` members, starting at a key. -/
def parseObjItems : Nat → List (String × JsValue) → List Char →
    Option (JsValue × List Char)
  | 0, _, _ => none
  | fuel + 1, acc, cs =>
    match cs with
    | [] => none
    | c :: rest =>
      if c == '\"' then
        match parseStrBody fuel rest with
        | none => none
        | some (k, r1) =>
          match skipWs r1 with
          | [] => none
          | c2 :: r2 =>
            if c2 == ':' then
              match parseVal fuel r2 with
              | none => none
              | some (v, r3) =>
                let acc2 := objInsert acc (String.mk k) v
                match skipWs r3 with
                | [] => none
                | c3 :: r4 =>
                  if c3 == ',' then parseObjItems fuel acc2 (skipWs r4)
                  else if c3 == Char.ofNat 125 then some (JsValue.obj acc2, r4)
                  else none
            else none
      else none

/-- After the opening bracket of a JSON array. -/
def parseArrRest : Nat → List Char → Option (JsValue × List Char)
  | 0, _ => none
  | fuel + 1, cs =>
    match skipWs cs with
    | [] => none
    | c :: rest =>
      if c == ']' then some (JsValue.arr [], rest)
      else parseArrItems fuel [] cs

/-- One or more array elements. -/
def parseArrItems : Nat → List JsValue → List Char → Option (JsValue × List Char)
  | 0, _, _ => none
  | fuel + 1, acc, cs =>
    match parseVal fuel cs with
    | none => none
    | some (v, r1) =>
      match skipWs r1 with
      | [] => none
      | c :: r2 =>
        if c == ',' then parseArrItems fuel (acc ++ [v]) r2
        else if c == ']' then some (JsValue.arr (acc ++ [v]), r2)
        else none

end

/-- `JSON.parse` on a character list: parse one value, then reject any
trailing non-whitespace input.  The fuel bound exceeds the longest possible
chain of recursive calls for the given input. -/
def jsonParse (cs : List Char) : Option JsValue :=
  match parseVal (8 * cs.length + 64) cs with
  | some (v, rest) => if skipWs rest = [] then some v else none
  | none => none

/-- Property read `v[k]` as the clients use it: on an object, the value of
the field; otherwise `undefined`.  (Plain access on `null` would throw in
JS; every place the clients read a property of a possibly-`null` value
either uses optional chaining, which yields `undefined`, or is modelled
with the `null` case handled separately.) -/
def jsGet (v : JsValue) (k : String) : JsValue :=
  match v with
  | JsValue.obj fs =>
    match fs.find? (fun p => p.1 == k) with
    | some p => p.2
    | none => JsValue.undef
  | _ => JsValue.undef

/-- Whether the mantissa of a JSON number literal is zero (its digits
before any exponent marker are all `0`). -/
def numIsZero (raw : String) : Bool :=
  (raw.data.takeWhile (fun c => !(c == 'e' || c == 'E'))).all
    (fun c => !c.isDigit || c == '0')

/-- JS truthiness. -/
def jsTruthy : JsValue → Bool
  | JsValue.undef => false
  | JsValue.null => false
  | JsValue.bool b => b
  | JsValue.num raw => !numIsZero raw
  | JsValue.str s => !(s == "")
  | JsValue.arr _ => true
  | JsValue.obj _ => true

def jsIsArr : JsValue → Bool
  | JsValue.arr _ => true
  | _ => false

mutual

/-- JS `String(v)` coercion.  A number coerces to its source text (the
clients never display numbers that JS would re-format). -/
def jsToString : JsValue → String
  | JsValue.undef => "undefined"
  | JsValue.null => "null"
  | JsValue.bool b => cond b "true" "false"
  | JsValue.num raw => raw
  | JsValue.str s => s
  | JsValue.arr xs => String.intercalate "," (jsToStringElems xs)
  | JsValue.obj _ => "[object Object]"

/-- Array elements under `Array.prototype.toString`: `null` and
`undefined` become empty strings. -/
def jsToStringElems : List JsValue → List String
  | [] => []
  | JsValue.undef :: xs => "" :: jsToStringElems xs
  | JsValue.null :: xs => "" :: jsToStringElems xs
  | x :: xs => jsToString x :: jsToStringElems xs

end

/-- Split a list at the first occurrence of `pat`: the part before it and
the part after it. -/
def splitFirst (pat : List Char) : List Char → Option (List Char × List Char)
  | [] => if pat.isEmpty then some ([], []) else none
  | c :: cs =>
    if pat.isPrefixOf (c :: cs) then some ([], (c :: cs).drop pat.length)
    else
      match splitFirst pat cs with
      | some (pre, post) => some (c :: pre, post)
      | none => none

/-- Three backticks. -/
def ticks : List Char := [Char.ofNat 96, Char.ofNat 96, Char.ofNat 96]

/-- The capture of the first match of the regex
 three backticks, `(?:json)?`, `\s*`, lazy `([\s\S]*?)`, three backticks:
after the first triple backtick, optionally skip a literal `json` tag,
greedily skip whitespace, and capture lazily up to the next triple
backtick.  `none` when the regex does not match. -/
def extractFence (cs : List Char) : Option (List Char) :=
  match splitFirst ticks cs with
  | none => none
  | some (_, rest1) =>
    let rest2 := if ['j', 's', 'o', 'n'].isPrefixOf rest1 then rest1.drop 4 else rest1
    let rest3 := rest2.dropWhile jsWsChar
    match splitFirst ticks rest3 with
    | none => none
    | some (inner, _) => some inner

def isLb (c : Char) : Bool := c == Char.ofNat 123

def isRb (c : Char) : Bool := c == Char.ofNat 125

/-- The longest prefix that ends with a closing brace (the greedy
`[\s\S]*\}` part of the brace regex), or `[]` when no closing brace
occurs. -/
def keepUpToLast (cs : List Char) : List Char :=
  match cs with
  | [] => []
  | c :: rest =>
    match keepUpToLast rest with
    | [] => if isRb c then [c] else []
    | t => c :: t

/-- The first match of the regex `\{[\s\S]*\}` (greedy): the substring
from the first opening brace to the last closing brace after it, or
`none` when the regex does not match. -/
def braceSlice (cs : List Char) : Option (List Char) :=
  match cs.dropWhile (fun c => !(isLb c)) with
  | [] => none
  | c :: rest =>
    match keepUpToLast (c :: rest) with
    | [] => none
    | t => some t

/-- Lines 13–17 of `tryParsePubMed`: trim, take the interior of the first
fenced code block when one matches (trimmed), and select the brace-delimited
candidate substring. -/
def pubmedCandidate (s : String) : Option (List Char) :=
  let t := trimChars s.data
  let t2 :=
    match extractFence t with
    | some inner => trimChars inner
    | none => t
  braceSlice t2

/-- `tryParsePubMed` from `src/frontend/src/App.jsx` (lines 11–27). -/
def tryParsePubMed (content : JsValue) : Option JsValue :=
  match content with
  | JsValue.str s =>
    match pubmedCandidate s with
    | none => none
    | some sub =>
      match jsonParse sub with
      | none => none
      | some data =>
        let r := jsGet data "results"
        if jsTruthy r && jsIsArr r then some data else none
  | _ => none

/-- One rendered PubMed card (lines 41–64 of `App.jsx`). -/
structure PubCard where
  key : JsValue
  titleText : JsValue
  titleHref : JsValue
  authors : Option JsValue
  citation : Option JsValue
  snippet : Option JsValue
  linkHref : JsValue

/-- Rendering of one entry of `pubmed.results` at position `i`.  The
source reads properties of `r` directly, so an entry that is not an
object would make the real renderer throw; the claims about cards are
therefore stated for object entries. -/
def renderCard (i : Nat) (r : JsValue) : PubCard :=
  let url := jsGet r "url"
  let pmid := jsGet r "pmid"
  let title := jsGet r "title"
  let authors := jsGet r "authors"
  let citation := jsGet r "journal_citation"
  let snippet := jsGet r "snippet"
  { key := if jsTruthy pmid then pmid else JsValue.num (toString i)
    titleText := if jsTruthy title then title else JsValue.str "Untitled"
    titleHref := url
    authors := if jsTruthy authors then some authors else none
    citation := if jsTruthy citation then some citation else none
    snippet := if jsTruthy snippet then some snippet else none
    linkHref := url }

structure PubRender where
  total : JsValue
  query : Option JsValue
  cards : List PubCard

inductive Rendered where
  | structured (p : PubRender)
  | plain (content : JsValue)

def mapWithIndex (f : Nat → JsValue → PubCard) : Nat → List JsValue → List PubCard
  | _, [] => []
  | i, x :: xs => f i x :: mapWithIndex f (i + 1) xs

/-- `MessageContent` (lines 29–72 of `App.jsx`): structured rendering when
`tryParsePubMed` accepts the content, plain text otherwise. -/
def renderMessageContent (content : JsValue) : Rendered :=
  match tryParsePubMed content with
  | some data =>
    let rs :=
      match jsGet data "results" with
      | JsValue.arr xs => xs
      | _ => []
    Rendered.structured
      { total := jsGet data "total_results"
        query :=
          if jsTruthy (jsGet data "query") then some (jsGet data "query") else none
        cards := mapWithIndex renderCard 0 rs }
  | none => Rendered.plain content

/-- A message entry as the clients store it (`{ role, content }`); server
responses may place arbitrary values in the list, so entries are plain
`JsValue`s. -/
def userMsg (text : String) : JsValue :=
  JsValue.obj [("role", JsValue.str "user"), ("content", JsValue.str text)]

/-- The filter of the request body:
`m.role === 'user' || m.role === 'assistant'`. -/
def roleOk (m : JsValue) : Bool :=
  match jsGet m "role" with
  | JsValue.str s => s == "user" || s == "assistant"
  | _ => false

/-- The view state owned by each client: message list, input text,
loading flag, error banner string. -/
structure ClientState where
  messages : JsValue
  input : String
  loading : Bool
  error : String

/-- A thrown/rejected JS exception as the `catch` block observes it. -/
structure JsError where
  name : String
  message : String

/-- `String(e?.message || e)` where `e` is an `Error`: the message when it
is non-empty, otherwise `Error.prototype.toString` of an error with an
empty message, which is just its name. -/
def surfaceCaught (e : JsError) : String :=
  if e.message == "" then e.name else e.message

/-- The resolution of the single `fetch` call: either the promise rejects,
or a response with a status code and a raw body text arrives
(`resp.json()` then parses the body). -/
inductive FetchOutcome where
  | reject (e : JsError)
  | resp (status : Nat) (body : String)

/-- `resp.ok`: status in the inclusive range 200–299. -/
def statusOk (s : Nat) : Bool :=
  decide (200 ≤ s) && decide (s ≤ 299)

/-- Everything observable about one `send` call: the state after it
settles, the view state during the `await` (present iff a request was
issued), the `messages` array of the request body (present iff a request
was issued), and whether a synchronous exception escaped (only possible
when the stored message list is not an array, which no claim reaches). -/
structure SendResult where
  state : ClientState
  inFlight : Option ClientState
  request : Option (List JsValue)
  threw : Bool

/-- The effective text of `send(userText)` in `App.jsx` (line 93):
`(typeof userText === 'string' ? userText : input.trim()).trim()`. -/
def effTextApp (userText : Option String) (st : ClientState) : String :=
  jsTrimS (match userText with | some t => t | none => jsTrimS st.input)

/-- The error string the `catch` block surfaces after a response arrives
with a failure status: `throw new Error(data?.message || data?.error ||
\`HTTP ${status}\`)`, then `String(e?.message || e)`. -/
def httpFailError (data : JsValue) (status : Nat) : String :=
  let pick :=
    if jsTruthy (jsGet data "message") then jsGet data "message"
    else if jsTruthy (jsGet data "error") then jsGet data "error"
    else JsValue.str ("HTTP " ++ toString status)
  surfaceCaught { name := "Error", message := jsToString pick }

/-- The message list stored by the success path,
`setMessages(data.messages || nextMessages)` (only reached when `data` is
not `null`). -/
def successMessages (data : JsValue) (next : List JsValue) : JsValue :=
  let v := jsGet data "messages"
  if jsTruthy v then v else JsValue.arr next

/-- The try/catch/finally body of `send` in `App.jsx`, after the `await`
resolves: its `catch` removes the optimistic last message
(`setMessages((prev) => prev.slice(0, -1))`). -/
def settleApp (parseErrMsg : String → String) (nullErr : JsError)
    (next : List JsValue) (outcome : FetchOutcome) : ClientState :=
  match outcome with
  | FetchOutcome.reject e =>
    { messages := JsValue.arr next.dropLast, input := "", loading := false,
      error := surfaceCaught e }
  | FetchOutcome.resp status body =>
    match jsonParse body.data with
    | none =>
      { messages := JsValue.arr next.dropLast, input := "", loading := false,
        error := surfaceCaught { name := "SyntaxError", message := parseErrMsg body } }
    | some data =>
      if !statusOk status then
        { messages := JsValue.arr next.dropLast, input := "", loading := false,
          error := httpFailError data status }
      else
        match data with
        | JsValue.null =>
          { messages := JsValue.arr next.dropLast, input := "", loading := false,
            error := surfaceCaught nullErr }
        | _ =>
          { messages := successMessages data next,
            input := "", loading := false, error := "" }

/-- The try/catch/finally body of `send` in the second client file: its
`catch` only sets the error string, leaving the optimistic list in
place. -/
def settlePart (parseErrMsg : String → String) (nullErr : JsError)
    (next : List JsValue) (outcome : FetchOutcome) : ClientState :=
  match outcome with
  | FetchOutcome.reject e =>
    { messages := JsValue.arr next, input := "", loading := false,
      error := surfaceCaught e }
  | FetchOutcome.resp status body =>
    match jsonParse body.data with
    | none =>
      { messages := JsValue.arr next, input := "", loading := false,
        error := surfaceCaught { name := "SyntaxError", message := parseErrMsg body } }
    | some data =>
      if !statusOk status then
        { messages := JsValue.arr next, input := "", loading := false,
          error := httpFailError data status }
      else
        match data with
        | JsValue.null =>
          { messages := JsValue.arr next, input := "", loading := false,
            error := surfaceCaught nullErr }
        | _ =>
          { messages := successMessages data next,
            input := "", loading := false, error := "" }

/-- `send` of `src/frontend/src/App.jsx` (lines 92–121), as a pure state
transition.  `parseErrMsg body` is the host engine's `SyntaxError` message
for `JSON.parse` failing on `body`; `nullErr` is the host `TypeError`
raised by evaluating `data.messages` when `data` is `null`. -/
def sendApp (parseErrMsg : String → String) (nullErr : JsError)
    (st : ClientState) (userText : Option String) (outcome : FetchOutcome) :
    SendResult :=
  let text := effTextApp userText st
  if text == "" || st.loading then
    { state := st, inFlight := none, request := none, threw := false }
  else
    match st.messages with
    | JsValue.arr ms =>
      let next := ms ++ [userMsg text]
      { state := settleApp parseErrMsg nullErr next outcome,
        inFlight := some { messages := JsValue.arr next, input := "",
                           loading := true, error := "" },
        request := some (next.filter roleOk),
        threw := false }
    | _ =>
      { state := { st with error := "", loading := true },
        inFlight := none, request := none, threw := true }

/-- `send` of the second client file (`src/unnamed/part_000`, lines
14–40): same control flow as `App.jsx`, except that it takes no text
argument (the input field is always used) and its `catch` block only sets
the error string — it does not remove the optimistic message. -/
def sendPart (parseErrMsg : String → String) (nullErr : JsError)
    (st : ClientState) (outcome : FetchOutcome) : SendResult :=
  let text := jsTrimS st.input
  if text == "" || st.loading then
    { state := st, inFlight := none, request := none, threw := false }
  else
    match st.messages with
    | JsValue.arr ms =>
      let next := ms ++ [userMsg text]
      { state := settlePart parseErrMsg nullErr next outcome,
        inFlight := some { messages := JsValue.arr next, input := "",
                           loading := true, error := "" },
        request := some (next.filter roleOk),
        threw := false }
    | _ =>
      { state := { st with error := "", loading := true },
        inFlight := none, request := none, threw := true }

/-- Index of the first character satisfying `p`. -/
def idxOfFirst (p : Char → Bool) : List Char → Option Nat
  | [] => none
  | c :: cs => if p c then some 0 else (idxOfFirst p cs).map (· + 1)

/-- Index of the last character satisfying `p`. -/
def idxOfLast (p : Char → Bool) (cs : List Char) : Option Nat :=
  match idxOfFirst p cs.reverse with
  | some k => some (cs.length - 1 - k)
  | none => none

/-- Spec wording, renderer step 3: the substring from the first opening
brace to the last closing brace of the text, if such a substring exists. -/
def specBraceText (cs : List Char) : Option (List Char) :=
  match idxOfFirst isLb cs, idxOfLast isRb cs with
  | some i, some j => if i < j then some ((cs.drop i).take (j - i + 1)) else none
  | _, _ => none

/-- Spec wording, renderer step 5: the parsed result has a `results`
field that is an ordered sequence. -/
def specHasResults (v : JsValue) : Bool :=
  match jsGet v "results" with
  | JsValue.arr _ => true
  | _ => false

/-- Candidate-substring selection as the spec words it: trim, take the
interior of the first fenced block when present, then the first-brace to
last-brace substring. -/
def specCandidate (s : String) : Option (List Char) :=
  let t := trimChars s.data
  let t2 :=
    match extractFence t with
    | some inner => trimChars inner
    | none => t
  specBraceText t2

/-- The renderer decision procedure exactly as the spec words it
(steps 2–5 for string content). -/
def tryParsePubMedSpec (s : String) : Option JsValue :=
  match specCandidate s with
  | none => none
  | some sub =>
    match jsonParse sub with
    | none => none
    | some data => if specHasResults data then some data else none

theorem idxOfFirst_none {p : Char → Bool} :
    ∀ {cs : List Char}, idxOfFirst p cs = none →
      cs.dropWhile (fun c => !(p c)) = [] := by
  intro cs
  induction cs with
  | nil => intro _; rfl
  | cons c cs ih =>
    intro h
    rw [idxOfFirst] at h
    by_cases hc : p c = true
    · rw [if_pos hc] at h; exact Option.noConfusion h
    · rw [if_neg hc] at h
      have h2 : idxOfFirst p cs = none := by
        cases hfi : idxOfFirst p cs with
        | none => rfl
        | some k => rw [hfi] at h; exact Option.noConfusion h
      rw [List.dropWhile_cons]
      have hb : (!(p c)) = true := by simp [hc]
      rw [if_pos hb]
      exact ih h2

theorem idxOfFirst_some {p : Char → Bool} :
    ∀ {cs : List Char} {i : Nat}, idxOfFirst p cs = some i →
      cs.dropWhile (fun c => !(p c)) = cs.drop i ∧
      ∃ h : i < cs.length, p (cs.get ⟨i, h⟩) = true := by
  intro cs
  induction cs with
  | nil => intro i h; exact Option.noConfusion h
  | cons c cs ih =>
    intro i h
    rw [idxOfFirst] at h
    by_cases hc : p c = true
    · rw [if_pos hc] at h
      injection h with h
      subst h
      refine ⟨?_, ⟨by simp, by simpa using hc⟩⟩
      rw [List.dropWhile_cons]
      have hb : (!(p c)) = false := by simp [hc]
      rw [hb]
      simp
    · rw [if_neg hc] at h
      cases hfi : idxOfFirst p cs with
      | none => rw [hfi] at h; exact Option.noConfusion h
      | some k =>
        rw [hfi] at h
        injection h with h
        subst h
        obtain ⟨h1, h2, h3⟩ := ih hfi
        refine ⟨?_, ⟨by simpa using h2, by simpa using h3⟩⟩
        rw [List.dropWhile_cons]
        have hb : (!(p c)) = true := by simp [hc]
        rw [if_pos hb, h1]
        rfl

theorem idxOfFirst_concat {p : Char → Bool} (c : Char) :
    ∀ (xs : List Char), idxOfFirst p (xs ++ [c]) =
      (match idxOfFirst p xs with
       | some k => some k
       | none => if p c then some xs.length else none) := by
  intro xs
  induction xs with
  | nil => simp [idxOfFirst]
  | cons x xs ih =>
    rw [List.cons_append, idxOfFirst, idxOfFirst, ih]
    by_cases hx : p x = true
    · rw [if_pos hx, if_pos hx]
    · rw [if_neg hx, if_neg hx]
      cases hfi : idxOfFirst p xs with
      | some k => simp
      | none =>
        by_cases hc : p c = true
        · simp [hc]
        · simp [hc]

theorem keepUpToLast_eq :
    ∀ cs : List Char, keepUpToLast cs =
      (match idxOfFirst isRb cs.reverse with
       | none => []
       | some k => cs.take (cs.length - k)) := by
  intro cs
  induction cs with
  | nil => rfl
  | cons c cs ih =>
    rw [List.reverse_cons, idxOfFirst_concat]
    show (match keepUpToLast cs with
          | [] => if isRb c then [c] else []
          | t => c :: t) = _
    cases hfi : idxOfFirst isRb cs.reverse with
    | some k =>
      obtain ⟨_, hk, _⟩ := idxOfFirst_some hfi
      rw [List.length_reverse] at hk
      have hlen : (cs.take (cs.length - k)).length = cs.length - k := by
        rw [List.length_take]; omega
      have hne : cs.take (cs.length - k) ≠ [] := by
        intro hnil
        rw [hnil] at hlen
        simp at hlen
        omega
      rw [ih, hfi]
      dsimp only
      cases htk : cs.take (cs.length - k) with
      | nil => exact absurd htk hne
      | cons t ts =>
        show c :: (t :: ts) = _
        rw [← htk]
        show c :: cs.take (cs.length - k) = (c :: cs).take ((c :: cs).length - k)
        have harith : (c :: cs).length - k = (cs.length - k) + 1 := by
          rw [List.length_cons]; omega
        rw [harith]
        rfl
    | none =>
      rw [ih, hfi]
      dsimp only
      by_cases hc : isRb c = true
      · rw [if_pos hc, if_pos hc]
        dsimp only
        show [c] = (c :: cs).take ((c :: cs).length - cs.reverse.length)
        have : (c :: cs).length - cs.reverse.length = 1 := by
          rw [List.length_cons, List.length_reverse]; omega
        rw [this]
        rfl
      · rw [if_neg hc, if_neg hc]

theorem idxOfFirst_take {p : Char → Bool} :
    ∀ (l : List Char) (n : Nat), idxOfFirst p (l.take n) =
      (match idxOfFirst p l with
       | some k => if k < n then some k else none
       | none => none) := by
  intro l
  induction l with
  | nil =>
    intro n
    cases hfi : idxOfFirst p ([] : List Char) with
    | some k => exact Option.noConfusion hfi
    | none => cases n <;> simp [idxOfFirst]
  | cons c cs ih =>
    intro n
    cases n with
    | zero =>
      rw [List.take_zero]
      show (none : Option Nat) = _
      cases hfi : idxOfFirst p (c :: cs) with
      | some k => simp
      | none => simp
    | succ n =>
      rw [List.take_succ_cons, idxOfFirst, idxOfFirst]
      by_cases hc : p c = true
      · rw [if_pos hc, if_pos hc]
        simp
      · rw [if_neg hc, if_neg hc, ih n]
        cases hfi : idxOfFirst p cs with
        | some k =>
          dsimp only
          by_cases hk : k < n
          · rw [if_pos hk]
            have h2 : k + 1 < n + 1 := by omega
            simp [h2]
          · rw [if_neg hk]
            have h2 : ¬ (k + 1 < n + 1) := by omega
            simp [h2]
        | none => simp

theorem braceSlice_eq_spec : ∀ cs : List Char, braceSlice cs = specBraceText cs := by
  intro cs
  rw [braceSlice, specBraceText, idxOfLast]
  cases h1 : idxOfFirst isLb cs with
  | none =>
    rw [idxOfFirst_none h1]
  | some i =>
    obtain ⟨hdw, hi, hpi⟩ := idxOfFirst_some h1
    rw [hdw]
    have hdne : cs.drop i ≠ [] := by
      intro hnil
      have h := congrArg List.length hnil
      rw [List.length_drop] at h
      simp at h
      omega
    cases hdrop : cs.drop i with
    | nil => exact absurd hdrop hdne
    | cons d ds =>
      show (match keepUpToLast (d :: ds) with
            | [] => none
            | t => some t) = _
      rw [← hdrop, keepUpToLast_eq, List.reverse_drop, idxOfFirst_take]
      cases h2 : idxOfFirst isRb cs.reverse with
      | none => rfl
      | some k =>
        obtain ⟨_, hk, hpk⟩ := idxOfFirst_some h2
        rw [List.length_reverse] at hk
        have hij : i ≠ cs.length - 1 - k := by
          intro heq
          rw [List.get_eq_getElem, List.getElem_reverse] at hpk
          rw [List.get_eq_getElem] at hpi
          simp only [List.length_reverse] at hpk
          have hchar : cs[i]? = cs[cs.length - 1 - k]? := by rw [heq]
          rw [List.getElem?_eq_getElem hi, List.getElem?_eq_getElem (by omega)] at hchar
          injection hchar with hchar
          rw [isLb] at hpi
          rw [isRb] at hpk
          rw [eq_of_beq hpi] at hchar
          rw [eq_of_beq hpk] at hchar
          exact absurd hchar (by decide)
        dsimp only
        by_cases hklen : k < cs.length - i
        · rw [if_pos hklen]
          dsimp only
          have hij2 : i < cs.length - 1 - k := by omega
          rw [if_pos hij2]
          rw [List.length_drop]
          have hcount : cs.length - i - k = cs.length - 1 - k - i + 1 := by omega
          rw [hcount]
          have hne2 : (cs.drop i).take (cs.length - 1 - k - i + 1) ≠ [] := by
            intro hnil
            have h := congrArg List.length hnil
            rw [List.length_take, List.length_drop] at h
            simp at h
            omega
          cases htk : (cs.drop i).take (cs.length - 1 - k - i + 1) with
          | nil => exact absurd htk hne2
          | cons t ts => rfl
        · have hij2 : ¬ (i < cs.length - 1 - k) := by omega
          rw [if_neg hklen, if_neg hij2]

theorem truthy_and_isArr (v : JsValue) : (jsTruthy v && jsIsArr v) = jsIsArr v := by
  cases v <;> simp [jsTruthy, jsIsArr]

theorem specHasResults_eq (v : JsValue) :
    jsIsArr (jsGet v "results") = specHasResults v := by
  rw [specHasResults]
  cases jsGet v "results" <;> rfl

theorem pubmedCandidate_eq_spec (s : String) :
    pubmedCandidate s = specCandidate s := by
  simp only [pubmedCandidate, specCandidate]
  exact braceSlice_eq_spec _

theorem tryParsePubMed_eq_spec (s : String) :
    tryParsePubMed (JsValue.str s) = tryParsePubMedSpec s := by
  rw [tryParsePubMed, tryParsePubMedSpec, pubmedCandidate_eq_spec s]
  cases specCandidate s with
  | none => rfl
  | some sub =>
    dsimp only
    cases jsonParse sub with
    | none => rfl
    | some data =>
      dsimp only
      rw [truthy_and_isArr, specHasResults_eq]

/-- Any accepted payload has a `results` field that is an array: the
accepting branch of `tryParsePubMed` is guarded by `Array.isArray`. -/
theorem tryParsePubMed_some_results {v d : JsValue} (h : tryParsePubMed v = some d) :
    ∃ xs, jsGet d "results" = JsValue.arr xs := by
  cases v with
  | str s =>
    rw [tryParsePubMed] at h
    cases hc : pubmedCandidate s with
    | none => rw [hc] at h; exact Option.noConfusion h
    | some sub =>
      rw [hc] at h
      dsimp only at h
      cases hj : jsonParse sub with
      | none => rw [hj] at h; exact Option.noConfusion h
      | some data =>
        rw [hj] at h
        dsimp only at h
        by_cases hcond : (jsTruthy (jsGet data "results") && jsIsArr (jsGet data "results")) = true
        · rw [if_pos hcond] at h
          injection h with h
          subst h
          rw [Bool.and_eq_true] at hcond
          cases hx : jsGet data "results" with
          | arr xs => exact ⟨xs, rfl⟩
          | undef => rw [hx] at hcond; exact Bool.noConfusion hcond.2
          | null => rw [hx] at hcond; exact Bool.noConfusion hcond.2
          | bool b => rw [hx] at hcond; exact Bool.noConfusion hcond.2
          | num r => rw [hx] at hcond; exact Bool.noConfusion hcond.2
          | str s2 => rw [hx] at hcond; exact Bool.noConfusion hcond.2
          | obj fs => rw [hx] at hcond; exact Bool.noConfusion hcond.2
        · rw [if_neg hcond] at h
          exact Option.noConfusion h
  | undef => exact Option.noConfusion h
  | null => exact Option.noConfusion h
  | bool b => exact Option.noConfusion h
  | num r => exact Option.noConfusion h
  | arr xs => exact Option.noConfusion h
  | obj fs => exact Option.noConfusion h

/-- The accepted payload is returned unchanged: it is exactly the value
`JSON.parse` produced from the selected candidate substring. -/
theorem tryParsePubMed_some_unchanged {s : String} {d : JsValue}
    (h : tryParsePubMed (JsValue.str s) = some d) :
    ∃ sub, pubmedCandidate s = some sub ∧ jsonParse sub = some d := by
  rw [tryParsePubMed] at h
  cases hc : pubmedCandidate s with
  | none => rw [hc] at h; exact Option.noConfusion h
  | some sub =>
    rw [hc] at h
    dsimp only at h
    cases hj : jsonParse sub with
    | none => rw [hj] at h; exact Option.noConfusion h
    | some data =>
      rw [hj] at h
      dsimp only at h
      by_cases hcond : (jsTruthy (jsGet data "results") && jsIsArr (jsGet data "results")) = true
      · rw [if_pos hcond] at h
        injection h with h
        subst h
        exact ⟨sub, rfl, hj⟩
      · rw [if_neg hcond] at h
        exact Option.noConfusion h

/-- C3: for every input value (including non-strings and arbitrary
malformed strings), `tryParsePubMed` terminates and returns either `null`
(plain-text rendering) or a completely parsed payload whose `results`
field is an array; it never throws (the embedding is a total function and
the `JSON.parse` exception is caught as the `none` case) and never yields
a partially parsed payload.  The concrete input `"not json"` from the
specification renders as plain text. -/
theorem c3_total_and_never_partial :
    (∀ v : JsValue, (∀ s : String, v ≠ JsValue.str s) → tryParsePubMed v = none) ∧
    (∀ v d : JsValue, tryParsePubMed v = some d →
      ∃ xs, jsGet d "results" = JsValue.arr xs) ∧
    tryParsePubMed (JsValue.str "not json") = none := by
  refine ⟨?_, ?_, rfl⟩
  · intro v hv
    cases v with
    | str s => exact absurd rfl (hv s)
    | undef => rfl
    | null => rfl
    | bool b => rfl
    | num r => rfl
    | arr xs => rfl
    | obj fs => rfl
  · intro v d h
    exact tryParsePubMed_some_results h

/-- Witness for C3 at a concrete accepted input. -/
theorem c3_total_and_never_partial_witness :
    ∃ xs, jsGet (JsValue.obj [("results", JsValue.arr [])]) "results" = JsValue.arr xs :=
  c3_total_and_never_partial.2.1 (JsValue.str "\x7b\"results\":[]\x7d")
    (JsValue.obj [("results", JsValue.arr [])]) rfl

/-- C2: for every string input, `tryParsePubMed` implements exactly the
spec's decision procedure — trim; interior of the first fenced block when
one is present; substring from the first opening brace to the last
closing brace (`null` when absent); `null` on parse failure or when the
parsed value lacks a `results` field that is an array; otherwise the
parsed payload.  In particular the fenced empty-results payload is
accepted as structured with zero entries and an absent count field. -/
theorem c2_decision_procedure :
    (∀ s : String, tryParsePubMed (JsValue.str s) = tryParsePubMedSpec s) ∧
    tryParsePubMed (JsValue.str "```json\n\x7b\"results\":[]\x7d\n```")
      = some (JsValue.obj [("results", JsValue.arr [])]) ∧
    jsGet (JsValue.obj [("results", JsValue.arr [])]) "total_results" = JsValue.undef :=
  ⟨tryParsePubMed_eq_spec, rfl, rfl⟩

/-- The exact example input of C8. -/
def c8Input : String :=
  "\x7b\"total_results\":2,\"results\":[\x7b\"title\":\"A\",\"url\":\"http://x\"\x7d,\x7b\"title\":\"B\",\"url\":\"http://y\"\x7d]\x7d"

/-- The payload that `JSON.parse` yields for `c8Input`. -/
def c8Payload : JsValue :=
  JsValue.obj [("total_results", JsValue.num "2"),
    ("results", JsValue.arr [
      JsValue.obj [("title", JsValue.str "A"), ("url", JsValue.str "http://x")],
      JsValue.obj [("title", JsValue.str "B"), ("url", JsValue.str "http://y")]])]

/-- C8: every accepted payload is returned unchanged — it is exactly what
`JSON.parse` produced from the candidate substring, with no sorting,
deduplication or URL validation — and the concrete two-entry example is
accepted and rendered as two cards with titles "A" then "B" in payload
order. -/
theorem c8_results_unchanged_in_order :
    (∀ (s : String) (d : JsValue), tryParsePubMed (JsValue.str s) = some d →
      ∃ sub, pubmedCandidate s = some sub ∧ jsonParse sub = some d) ∧
    tryParsePubMed (JsValue.str c8Input) = some c8Payload ∧
    renderMessageContent (JsValue.str c8Input) = Rendered.structured
      { total := JsValue.num "2"
        query := none
        cards := [
          { key := JsValue.num "0", titleText := JsValue.str "A",
            titleHref := JsValue.str "http://x", authors := none,
            citation := none, snippet := none, linkHref := JsValue.str "http://x" },
          { key := JsValue.num "1", titleText := JsValue.str "B",
            titleHref := JsValue.str "http://y", authors := none,
            citation := none, snippet := none, linkHref := JsValue.str "http://y" }] } := by
  refine ⟨?_, rfl, rfl⟩
  intro s d h
  exact tryParsePubMed_some_unchanged h

/-- Witness for C8's universally quantified part at the example input. -/
theorem c8_results_unchanged_in_order_witness :
    ∃ sub, pubmedCandidate c8Input = some sub ∧ jsonParse sub = some c8Payload :=
  c8_results_unchanged_in_order.1 c8Input c8Payload rfl

/-- C9: an entry of an accepted structured payload that lacks a `title`
field renders the literal fallback "Untitled" as its title, and both the
title link and the secondary link still carry that entry's `url`; the
structured rendering maps `renderCard` over the accepted payload's
`results` entries in order. -/
theorem c9_untitled_fallback :
    (∀ (fs : List (String × JsValue)) (i : Nat),
      jsGet (JsValue.obj fs) "title" = JsValue.undef →
      (renderCard i (JsValue.obj fs)).titleText = JsValue.str "Untitled" ∧
      (renderCard i (JsValue.obj fs)).titleHref = jsGet (JsValue.obj fs) "url" ∧
      (renderCard i (JsValue.obj fs)).linkHref = jsGet (JsValue.obj fs) "url") ∧
    (∀ (c : JsValue) (p : PubRender), renderMessageContent c = Rendered.structured p →
      ∃ d xs, tryParsePubMed c = some d ∧ jsGet d "results" = JsValue.arr xs ∧
        p.cards = mapWithIndex renderCard 0 xs) := by
  constructor
  · intro fs i h
    rw [renderCard]
    dsimp only
    rw [h]
    exact ⟨rfl, rfl, rfl⟩
  · intro c p h
    rw [renderMessageContent] at h
    cases ha : tryParsePubMed c with
    | none => rw [ha] at h; exact Rendered.noConfusion h
    | some data =>
      rw [ha] at h
      obtain ⟨xs, hxs⟩ := tryParsePubMed_some_results ha
      dsimp only at h
      rw [hxs] at h
      injection h with h
      subst h
      exact ⟨data, xs, rfl, hxs, rfl⟩

/-- Witness for C9 at a concrete entry with a `url` but no `title`. -/
theorem c9_untitled_fallback_witness :
    (renderCard 0 (JsValue.obj [("url", JsValue.str "http://x")])).titleText
        = JsValue.str "Untitled" ∧
    (renderCard 0 (JsValue.obj [("url", JsValue.str "http://x")])).titleHref
        = jsGet (JsValue.obj [("url", JsValue.str "http://x")]) "url" ∧
    (renderCard 0 (JsValue.obj [("url", JsValue.str "http://x")])).linkHref
        = jsGet (JsValue.obj [("url", JsValue.str "http://x")]) "url" :=
  c9_untitled_fallback.1 [("url", JsValue.str "http://x")] 0 rfl

theorem sendApp_active (pe : String → String) (ne : JsError) {st : ClientState}
    (u : Option String) (oc : FetchOutcome) {ms : List JsValue}
    (harr : st.messages = JsValue.arr ms) (hload : st.loading = false)
    (htext : effTextApp u st ≠ "") :
    sendApp pe ne st u oc =
      { state := settleApp pe ne (ms ++ [userMsg (effTextApp u st)]) oc,
        inFlight := some { messages := JsValue.arr (ms ++ [userMsg (effTextApp u st)]),
                           input := "", loading := true, error := "" },
        request := some ((ms ++ [userMsg (effTextApp u st)]).filter roleOk),
        threw := false } := by
  have hcond : ¬ ((effTextApp u st == "" || st.loading) = true) := by
    rw [hload]
    simp [htext]
  simp only [sendApp]
  rw [if_neg hcond, harr]

theorem sendPart_active (pe : String → String) (ne : JsError) {st : ClientState}
    (oc : FetchOutcome) {ms : List JsValue}
    (harr : st.messages = JsValue.arr ms) (hload : st.loading = false)
    (htext : jsTrimS st.input ≠ "") :
    sendPart pe ne st oc =
      { state := settlePart pe ne (ms ++ [userMsg (jsTrimS st.input)]) oc,
        inFlight := some { messages := JsValue.arr (ms ++ [userMsg (jsTrimS st.input)]),
                           input := "", loading := true, error := "" },
        request := some ((ms ++ [userMsg (jsTrimS st.input)]).filter roleOk),
        threw := false } := by
  have hcond : ¬ ((jsTrimS st.input == "" || st.loading) = true) := by
    rw [hload]
    simp [htext]
  simp only [sendPart]
  rw [if_neg hcond, harr]

/-- C6: when the effective text (explicit argument or current input,
trimmed) is empty, or a request is already in flight, `send` changes
nothing in either client — the message list, input text, loading flag and
error string keep their values and no request is issued. -/
theorem c6_send_noop :
    (∀ (pe : String → String) (ne : JsError) (st : ClientState)
        (u : Option String) (oc : FetchOutcome),
      effTextApp u st = "" ∨ st.loading = true →
      sendApp pe ne st u oc =
        { state := st, inFlight := none, request := none, threw := false }) ∧
    (∀ (pe : String → String) (ne : JsError) (st : ClientState) (oc : FetchOutcome),
      jsTrimS st.input = "" ∨ st.loading = true →
      sendPart pe ne st oc =
        { state := st, inFlight := none, request := none, threw := false }) := by
  constructor
  · intro pe ne st u oc h
    have hcond : (effTextApp u st == "" || st.loading) = true := by
      rcases h with h | h
      · rw [h]; simp
      · rw [h]; simp
    simp only [sendApp]
    rw [if_pos hcond]
  · intro pe ne st oc h
    have hcond : (jsTrimS st.input == "" || st.loading) = true := by
      rcases h with h | h
      · rw [h]; simp
      · rw [h]; simp
    simp only [sendPart]
    rw [if_pos hcond]

/-- Witness for C6: a whitespace-only input with no request in flight is
a no-op in both clients. -/
theorem c6_send_noop_witness :
    sendApp (fun _ => "bad json") { name := "TypeError", message := "null" }
        { messages := JsValue.arr [], input := "   ", loading := false, error := "" }
        none (FetchOutcome.resp 200 "\x7b\x7d")
      = { state := { messages := JsValue.arr [], input := "   ",
                     loading := false, error := "" },
          inFlight := none, request := none, threw := false } ∧
    sendPart (fun _ => "bad json") { name := "TypeError", message := "null" }
        { messages := JsValue.arr [], input := "   ", loading := false, error := "" }
        (FetchOutcome.resp 200 "\x7b\x7d")
      = { state := { messages := JsValue.arr [], input := "   ",
                     loading := false, error := "" },
          inFlight := none, request := none, threw := false } :=
  ⟨c6_send_noop.1 _ _ _ none _ (Or.inl rfl),
   c6_send_noop.2 _ _ _ _ (Or.inl rfl)⟩

/-- C5: with a non-empty trimmed effective text and no request in flight,
each client issues exactly one request whose body's `messages` array is
exactly the accumulated history (with the new user message appended)
filtered to the roles `user` and `assistant`; entries with any other role
are excluded from the request yet remain in the local (in-flight)
list. -/
theorem c5_request_filtered :
    (∀ (pe : String → String) (ne : JsError) (st : ClientState)
        (u : Option String) (oc : FetchOutcome) (ms : List JsValue),
      st.messages = JsValue.arr ms → st.loading = false → effTextApp u st ≠ "" →
      (sendApp pe ne st u oc).request
          = some ((ms ++ [userMsg (effTextApp u st)]).filter roleOk) ∧
      (sendApp pe ne st u oc).inFlight
          = some { messages := JsValue.arr (ms ++ [userMsg (effTextApp u st)]),
                   input := "", loading := true, error := "" } ∧
      (∀ m, m ∈ ms → roleOk m = false →
        m ∉ (ms ++ [userMsg (effTextApp u st)]).filter roleOk)) ∧
    (∀ (pe : String → String) (ne : JsError) (st : ClientState)
        (oc : FetchOutcome) (ms : List JsValue),
      st.messages = JsValue.arr ms → st.loading = false → jsTrimS st.input ≠ "" →
      (sendPart pe ne st oc).request
          = some ((ms ++ [userMsg (jsTrimS st.input)]).filter roleOk) ∧
      (sendPart pe ne st oc).inFlight
          = some { messages := JsValue.arr (ms ++ [userMsg (jsTrimS st.input)]),
                   input := "", loading := true, error := "" } ∧
      (∀ m, m ∈ ms → roleOk m = false →
        m ∉ (ms ++ [userMsg (jsTrimS st.input)]).filter roleOk)) := by
  constructor
  · intro pe ne st u oc ms harr hload htext
    rw [sendApp_active pe ne u oc harr hload htext]
    refine ⟨rfl, rfl, ?_⟩
    intro m _ hrole
    simp [List.mem_filter, hrole]
  · intro pe ne st oc ms harr hload htext
    rw [sendPart_active pe ne oc harr hload htext]
    refine ⟨rfl, rfl, ?_⟩
    intro m _ hrole
    simp [List.mem_filter, hrole]

/-- A local entry whose role is neither `user` nor `assistant`. -/
def sysMsg : JsValue :=
  JsValue.obj [("role", JsValue.str "system"), ("content", JsValue.str "be nice")]

/-- Witness for C5: a history holding a `system` entry sends only the new
user message, while the `system` entry stays in the local list. -/
theorem c5_request_filtered_witness :
    (sendApp (fun _ => "bad json") { name := "TypeError", message := "null" }
        { messages := JsValue.arr [sysMsg], input := "hi", loading := false, error := "" }
        none (FetchOutcome.resp 200 "\x7b\x7d")).request
      = some (([sysMsg] ++ [userMsg "hi"]).filter roleOk) ∧
    sysMsg ∉ ([sysMsg] ++ [userMsg "hi"]).filter roleOk :=
  ⟨(c5_request_filtered.1 (fun _ => "bad json") { name := "TypeError", message := "null" }
      { messages := JsValue.arr [sysMsg], input := "hi", loading := false, error := "" }
      none (FetchOutcome.resp 200 "\x7b\x7d") [sysMsg] rfl rfl (by decide)).1,
   (c5_request_filtered.1 (fun _ => "bad json") { name := "TypeError", message := "null" }
      { messages := JsValue.arr [sysMsg], input := "hi", loading := false, error := "" }
      none (FetchOutcome.resp 200 "\x7b\x7d") [sysMsg] rfl rfl (by decide)).2.2
     sysMsg (by simp) rfl⟩

/-- Counterexample to C1 as stated: in the second client, after an HTTP
failure (status 500, body an empty JSON object) the message list does not
return to its pre-send value — the optimistic user message is still
there. -/
theorem c1_counterexample :
    ¬ ((sendPart (fun _ => "bad json") { name := "TypeError", message := "null" }
        { messages := JsValue.arr [], input := "hi", loading := false, error := "" }
        (FetchOutcome.resp 500 "\x7b\x7d")).state.messages
      = JsValue.arr []) := by
  intro h
  have h2 : JsValue.arr [userMsg "hi"] = JsValue.arr [] := h
  injection h2 with h3
  exact List.noConfusion h3

/-- C1 as amended: on an HTTP failure status the `App.jsx` client's
rollback is exact (the list equals its pre-send value), while the second
client leaves the optimistic user message appended (the list equals the
pre-send list plus the new user message). -/
theorem c1_rollback_amended :
    (∀ (pe : String → String) (ne : JsError) (st : ClientState)
        (u : Option String) (ms : List JsValue) (status : Nat) (body : String),
      st.messages = JsValue.arr ms → st.loading = false → effTextApp u st ≠ "" →
      statusOk status = false →
      (sendApp pe ne st u (FetchOutcome.resp status body)).state.messages
        = JsValue.arr ms) ∧
    (∀ (pe : String → String) (ne : JsError) (st : ClientState)
        (ms : List JsValue) (status : Nat) (body : String),
      st.messages = JsValue.arr ms → st.loading = false → jsTrimS st.input ≠ "" →
      statusOk status = false →
      (sendPart pe ne st (FetchOutcome.resp status body)).state.messages
        = JsValue.arr (ms ++ [userMsg (jsTrimS st.input)])) := by
  constructor
  · intro pe ne st u ms status body harr hload htext hst
    rw [sendApp_active pe ne u (FetchOutcome.resp status body) harr hload htext]
    dsimp only
    rw [settleApp]
    cases hj : jsonParse body.data with
    | none => simp
    | some data =>
      dsimp only
      have hb : (!statusOk status) = true := by rw [hst]; rfl
      rw [if_pos hb]
      simp
  · intro pe ne st ms status body harr hload htext hst
    rw [sendPart_active pe ne (FetchOutcome.resp status body) harr hload htext]
    dsimp only
    rw [settlePart]
    cases hj : jsonParse body.data with
    | none => rfl
    | some data =>
      dsimp only
      have hb : (!statusOk status) = true := by rw [hst]; rfl
      rw [if_pos hb]

/-- Witness for the amended C1 at status 500 with an empty-object body. -/
theorem c1_rollback_amended_witness :
    (sendApp (fun _ => "bad json") { name := "TypeError", message := "null" }
        { messages := JsValue.arr [], input := "hi", loading := false, error := "" }
        none (FetchOutcome.resp 500 "\x7b\x7d")).state.messages
      = JsValue.arr [] ∧
    (sendPart (fun _ => "bad json") { name := "TypeError", message := "null" }
        { messages := JsValue.arr [], input := "hi", loading := false, error := "" }
        (FetchOutcome.resp 500 "\x7b\x7d")).state.messages
      = JsValue.arr ([] ++ [userMsg (jsTrimS "hi")]) :=
  ⟨c1_rollback_amended.1 (fun _ => "bad json") { name := "TypeError", message := "null" }
      { messages := JsValue.arr [], input := "hi", loading := false, error := "" }
      none [] 500 "\x7b\x7d" rfl rfl (by decide) rfl,
   c1_rollback_amended.2 (fun _ => "bad json") { name := "TypeError", message := "null" }
      { messages := JsValue.arr [], input := "hi", loading := false, error := "" }
      [] 500 "\x7b\x7d" rfl rfl (by decide) rfl⟩

theorem settleApp_success (pe : String → String) (ne : JsError) (next : List JsValue)
    (status : Nat) (body : String) (data : JsValue)
    (hok : statusOk status = true) (hj : jsonParse body.data = some data)
    (hnull : data ≠ JsValue.null) :
    settleApp pe ne next (FetchOutcome.resp status body) =
      { messages := successMessages data next, input := "",
        loading := false, error := "" } := by
  rw [settleApp]
  try dsimp only
  rw [hj]
  try dsimp only
  have hb : ¬ ((!statusOk status) = true) := by rw [hok]; simp
  rw [if_neg hb]
  cases data
  case null => exact absurd rfl hnull
  all_goals rfl

theorem settlePart_success (pe : String → String) (ne : JsError) (next : List JsValue)
    (status : Nat) (body : String) (data : JsValue)
    (hok : statusOk status = true) (hj : jsonParse body.data = some data)
    (hnull : data ≠ JsValue.null) :
    settlePart pe ne next (FetchOutcome.resp status body) =
      { messages := successMessages data next, input := "",
        loading := false, error := "" } := by
  rw [settlePart]
  try dsimp only
  rw [hj]
  try dsimp only
  have hb : ¬ ((!statusOk status) = true) := by rw [hok]; simp
  rw [if_neg hb]
  cases data
  case null => exact absurd rfl hnull
  all_goals rfl

theorem successMessages_arr (data : JsValue) (next : List JsValue) (xs : List JsValue)
    (hxs : jsGet data "messages" = JsValue.arr xs) :
    successMessages data next = JsValue.arr xs := by
  rw [successMessages]
  try dsimp only
  rw [hxs]
  rfl

theorem successMessages_falsy (data : JsValue) (next : List JsValue)
    (hfalsy : jsTruthy (jsGet data "messages") = false) :
    successMessages data next = JsValue.arr next := by
  rw [successMessages]
  try dsimp only
  rw [hfalsy]
  rfl

/-- Counterexample to C4 as stated: on HTTP success with the parseable
body `{"messages":{}}` — a body that provides no `messages` *list* — the
local value stored by `App.jsx` is that empty object itself, not the
locally-optimistic list. -/
theorem c4_counterexample :
    jsIsArr (jsGet (JsValue.obj [("messages", JsValue.obj [])]) "messages") = false ∧
    jsonParse "\x7b\"messages\":\x7b\x7d\x7d".data
      = some (JsValue.obj [("messages", JsValue.obj [])]) ∧
    (sendApp (fun _ => "bad json") { name := "TypeError", message := "null" }
        { messages := JsValue.arr [], input := "hi", loading := false, error := "" }
        none (FetchOutcome.resp 200 "\x7b\"messages\":\x7b\x7d\x7d")).state.messages
      = JsValue.obj [] ∧
    JsValue.obj [] ≠ JsValue.arr ([] ++ [userMsg "hi"]) := by
  refine ⟨rfl, rfl, rfl, ?_⟩
  intro h
  exact JsValue.noConfusion h

/-- C4 as amended: on HTTP success with a body parsing to a non-`null`
value, if the body's `messages` field is an array the local list is
replaced by exactly that array; if the field is absent or otherwise falsy
the local list is the locally-optimistic list.  (A truthy non-array
`messages` value is stored as-is, and a body parsing to `null` takes the
failure path instead — see the counterexample and C10.)  Both clients
behave identically here. -/
theorem c4_success_replacement_amended :
    (∀ (pe : String → String) (ne : JsError) (st : ClientState)
        (u : Option String) (ms : List JsValue) (status : Nat) (body : String)
        (data : JsValue),
      st.messages = JsValue.arr ms → st.loading = false → effTextApp u st ≠ "" →
      statusOk status = true → jsonParse body.data = some data →
      data ≠ JsValue.null →
      (∀ xs, jsGet data "messages" = JsValue.arr xs →
        (sendApp pe ne st u (FetchOutcome.resp status body)).state.messages
          = JsValue.arr xs) ∧
      (jsTruthy (jsGet data "messages") = false →
        (sendApp pe ne st u (FetchOutcome.resp status body)).state.messages
          = JsValue.arr (ms ++ [userMsg (effTextApp u st)]))) ∧
    (∀ (pe : String → String) (ne : JsError) (st : ClientState)
        (ms : List JsValue) (status : Nat) (body : String) (data : JsValue),
      st.messages = JsValue.arr ms → st.loading = false → jsTrimS st.input ≠ "" →
      statusOk status = true → jsonParse body.data = some data →
      data ≠ JsValue.null →
      (∀ xs, jsGet data "messages" = JsValue.arr xs →
        (sendPart pe ne st (FetchOutcome.resp status body)).state.messages
          = JsValue.arr xs) ∧
      (jsTruthy (jsGet data "messages") = false →
        (sendPart pe ne st (FetchOutcome.resp status body)).state.messages
          = JsValue.arr (ms ++ [userMsg (jsTrimS st.input)]))) := by
  constructor
  · intro pe ne st u ms status body data harr hload htext hok hj hnull
    rw [sendApp_active pe ne u (FetchOutcome.resp status body) harr hload htext]
    dsimp only
    rw [settleApp_success pe ne _ status body data hok hj hnull]
    constructor
    · intro xs hxs
      exact successMessages_arr data _ xs hxs
    · intro hfalsy
      exact successMessages_falsy data _ hfalsy
  · intro pe ne st ms status body data harr hload htext hok hj hnull
    rw [sendPart_active pe ne (FetchOutcome.resp status body) harr hload htext]
    dsimp only
    rw [settlePart_success pe ne _ status body data hok hj hnull]
    constructor
    · intro xs hxs
      exact successMessages_arr data _ xs hxs
    · intro hfalsy
      exact successMessages_falsy data _ hfalsy

/-- Witness for the amended C4: a success body carrying a one-message
list replaces the local list with exactly that list. -/
theorem c4_success_replacement_amended_witness :
    (sendApp (fun _ => "bad json") { name := "TypeError", message := "null" }
        { messages := JsValue.arr [], input := "hi", loading := false, error := "" }
        none (FetchOutcome.resp 200 "\x7b\"messages\":[\x7b\"role\":\"assistant\",\"content\":\"ok\"\x7d]\x7d")).state.messages
      = JsValue.arr [JsValue.obj [("role", JsValue.str "assistant"),
                                  ("content", JsValue.str "ok")]] :=
  (c4_success_replacement_amended.1 (fun _ => "bad json")
      { name := "TypeError", message := "null" }
      { messages := JsValue.arr [], input := "hi", loading := false, error := "" }
      none [] 200 "\x7b\"messages\":[\x7b\"role\":\"assistant\",\"content\":\"ok\"\x7d]\x7d"
      (JsValue.obj [("messages", JsValue.arr [JsValue.obj [("role", JsValue.str "assistant"),
        ("content", JsValue.str "ok")]])])
      rfl rfl (by decide) rfl rfl (by intro h; exact JsValue.noConfusion h)).1
    [JsValue.obj [("role", JsValue.str "assistant"), ("content", JsValue.str "ok")]] rfl

theorem settleApp_httpfail (pe : String → String) (ne : JsError) (next : List JsValue)
    (status : Nat) (body : String) (data : JsValue)
    (hst : statusOk status = false) (hj : jsonParse body.data = some data) :
    settleApp pe ne next (FetchOutcome.resp status body) =
      { messages := JsValue.arr next.dropLast, input := "", loading := false,
        error := httpFailError data status } := by
  rw [settleApp]
  try dsimp only
  rw [hj]
  try dsimp only
  have hb : (!statusOk status) = true := by rw [hst]; rfl
  rw [if_pos hb]

theorem settlePart_httpfail (pe : String → String) (ne : JsError) (next : List JsValue)
    (status : Nat) (body : String) (data : JsValue)
    (hst : statusOk status = false) (hj : jsonParse body.data = some data) :
    settlePart pe ne next (FetchOutcome.resp status body) =
      { messages := JsValue.arr next, input := "", loading := false,
        error := httpFailError data status } := by
  rw [settlePart]
  try dsimp only
  rw [hj]
  try dsimp only
  have hb : (!statusOk status) = true := by rw [hst]; rfl
  rw [if_pos hb]

/-- Counterexample to C7 as stated: the preference is by truthiness, not
presence.  On status 500 with body `{"message":"","error":"boom"}`, the
`message` field is present (the empty string) yet the surfaced error is
"boom", the `error` field. -/
theorem c7_counterexample :
    jsGet (JsValue.obj [("message", JsValue.str ""), ("error", JsValue.str "boom")])
        "message" = JsValue.str "" ∧
    jsonParse "\x7b\"message\":\"\",\"error\":\"boom\"\x7d".data
      = some (JsValue.obj [("message", JsValue.str ""), ("error", JsValue.str "boom")]) ∧
    (sendApp (fun _ => "bad json") { name := "TypeError", message := "null" }
        { messages := JsValue.arr [], input := "hi", loading := false, error := "" }
        none (FetchOutcome.resp 500 "\x7b\"message\":\"\",\"error\":\"boom\"\x7d")).state.error
      = "boom" ∧
    ("boom" : String) ≠ "" := by
  refine ⟨rfl, rfl, rfl, ?_⟩
  decide

/-- C7 as amended: on a failure status with a parseable body, both
clients surface the string coercion of — the body's `message` field when
truthy, else the body's `error` field when truthy, else the string
`HTTP <status>`; an empty coercion surfaces the error's name,
`"Error"`. -/
theorem c7_error_preference_amended :
    (∀ (pe : String → String) (ne : JsError) (st : ClientState)
        (u : Option String) (ms : List JsValue) (status : Nat) (body : String)
        (data : JsValue),
      st.messages = JsValue.arr ms → st.loading = false → effTextApp u st ≠ "" →
      statusOk status = false → jsonParse body.data = some data →
      (sendApp pe ne st u (FetchOutcome.resp status body)).state.error
        = surfaceCaught { name := "Error", message := jsToString (
            if jsTruthy (jsGet data "message") then jsGet data "message"
            else if jsTruthy (jsGet data "error") then jsGet data "error"
            else JsValue.str ("HTTP " ++ toString status)) }) ∧
    (∀ (pe : String → String) (ne : JsError) (st : ClientState)
        (ms : List JsValue) (status : Nat) (body : String) (data : JsValue),
      st.messages = JsValue.arr ms → st.loading = false → jsTrimS st.input ≠ "" →
      statusOk status = false → jsonParse body.data = some data →
      (sendPart pe ne st (FetchOutcome.resp status body)).state.error
        = surfaceCaught { name := "Error", message := jsToString (
            if jsTruthy (jsGet data "message") then jsGet data "message"
            else if jsTruthy (jsGet data "error") then jsGet data "error"
            else JsValue.str ("HTTP " ++ toString status)) }) := by
  constructor
  · intro pe ne st u ms status body data harr hload htext hst hj
    rw [sendApp_active pe ne u (FetchOutcome.resp status body) harr hload htext]
    dsimp only
    rw [settleApp_httpfail pe ne _ status body data hst hj]
    rfl
  · intro pe ne st ms status body data harr hload htext hst hj
    rw [sendPart_active pe ne (FetchOutcome.resp status body) harr hload htext]
    dsimp only
    rw [settlePart_httpfail pe ne _ status body data hst hj]
    rfl

/-- Witness for the amended C7: body `{"error":"down"}` at status 503
surfaces "down" in both clients. -/
theorem c7_error_preference_amended_witness :
    (sendApp (fun _ => "bad json") { name := "TypeError", message := "null" }
        { messages := JsValue.arr [], input := "hi", loading := false, error := "" }
        none (FetchOutcome.resp 503 "\x7b\"error\":\"down\"\x7d")).state.error
      = surfaceCaught { name := "Error", message := jsToString (
          if jsTruthy (jsGet (JsValue.obj [("error", JsValue.str "down")]) "message")
          then jsGet (JsValue.obj [("error", JsValue.str "down")]) "message"
          else if jsTruthy (jsGet (JsValue.obj [("error", JsValue.str "down")]) "error")
          then jsGet (JsValue.obj [("error", JsValue.str "down")]) "error"
          else JsValue.str ("HTTP " ++ toString 503)) } ∧
    (sendPart (fun _ => "bad json") { name := "TypeError", message := "null" }
        { messages := JsValue.arr [], input := "hi", loading := false, error := "" }
        (FetchOutcome.resp 503 "\x7b\"error\":\"down\"\x7d")).state.error
      = surfaceCaught { name := "Error", message := jsToString (
          if jsTruthy (jsGet (JsValue.obj [("error", JsValue.str "down")]) "message")
          then jsGet (JsValue.obj [("error", JsValue.str "down")]) "message"
          else if jsTruthy (jsGet (JsValue.obj [("error", JsValue.str "down")]) "error")
          then jsGet (JsValue.obj [("error", JsValue.str "down")]) "error"
          else JsValue.str ("HTTP " ++ toString 503)) } :=
  ⟨c7_error_preference_amended.1 (fun _ => "bad json")
      { name := "TypeError", message := "null" }
      { messages := JsValue.arr [], input := "hi", loading := false, error := "" }
      none [] 503 "\x7b\"error\":\"down\"\x7d" (JsValue.obj [("error", JsValue.str "down")])
      rfl rfl (by decide) rfl rfl,
   c7_error_preference_amended.2 (fun _ => "bad json")
      { name := "TypeError", message := "null" }
      { messages := JsValue.arr [], input := "hi", loading := false, error := "" }
      [] 503 "\x7b\"error\":\"down\"\x7d" (JsValue.obj [("error", JsValue.str "down")])
      rfl rfl (by decide) rfl rfl⟩

theorem settleApp_parsefail (pe : String → String) (ne : JsError) (next : List JsValue)
    (status : Nat) (body : String) (hj : jsonParse body.data = none) :
    settleApp pe ne next (FetchOutcome.resp status body) =
      { messages := JsValue.arr next.dropLast, input := "", loading := false,
        error := surfaceCaught { name := "SyntaxError", message := pe body } } := by
  rw [settleApp]
  try dsimp only
  rw [hj]

theorem settlePart_parsefail (pe : String → String) (ne : JsError) (next : List JsValue)
    (status : Nat) (body : String) (hj : jsonParse body.data = none) :
    settlePart pe ne next (FetchOutcome.resp status body) =
      { messages := JsValue.arr next, input := "", loading := false,
        error := surfaceCaught { name := "SyntaxError", message := pe body } } := by
  rw [settlePart]
  try dsimp only
  rw [hj]

theorem settleApp_nullbody (pe : String → String) (ne : JsError) (next : List JsValue)
    (status : Nat) (body : String) (hok : statusOk status = true)
    (hj : jsonParse body.data = some JsValue.null) :
    settleApp pe ne next (FetchOutcome.resp status body) =
      { messages := JsValue.arr next.dropLast, input := "", loading := false,
        error := surfaceCaught ne } := by
  rw [settleApp]
  try dsimp only
  rw [hj]
  try dsimp only
  have hb : ¬ ((!statusOk status) = true) := by rw [hok]; simp
  rw [if_neg hb]

theorem settlePart_nullbody (pe : String → String) (ne : JsError) (next : List JsValue)
    (status : Nat) (body : String) (hok : statusOk status = true)
    (hj : jsonParse body.data = some JsValue.null) :
    settlePart pe ne next (FetchOutcome.resp status body) =
      { messages := JsValue.arr next, input := "", loading := false,
        error := surfaceCaught ne } := by
  rw [settlePart]
  try dsimp only
  rw [hj]
  try dsimp only
  have hb : ¬ ((!statusOk status) = true) := by rw [hok]; simp
  rw [if_neg hb]

/-- C10: a response whose body is not valid JSON takes the failure path
at any status (the `resp.json()` rejection is caught before the status
check and its message is surfaced), and a body parsing to JSON `null`
takes the failure path even on a success status (reading `.messages` of
`null` throws, and that exception's message is surfaced); in both cases
the success-path list replacement never runs, and `App.jsx` additionally
removes the optimistic user message while the second client keeps it. -/
theorem c10_bad_body_failure_path :
    (∀ (pe : String → String) (ne : JsError) (st : ClientState)
        (u : Option String) (ms : List JsValue) (status : Nat) (body : String),
      st.messages = JsValue.arr ms → st.loading = false → effTextApp u st ≠ "" →
      jsonParse body.data = none →
      (sendApp pe ne st u (FetchOutcome.resp status body)).state
        = { messages := JsValue.arr ms, input := "", loading := false,
            error := surfaceCaught { name := "SyntaxError", message := pe body } }) ∧
    (∀ (pe : String → String) (ne : JsError) (st : ClientState)
        (u : Option String) (ms : List JsValue) (status : Nat) (body : String),
      st.messages = JsValue.arr ms → st.loading = false → effTextApp u st ≠ "" →
      statusOk status = true → jsonParse body.data = some JsValue.null →
      (sendApp pe ne st u (FetchOutcome.resp status body)).state
        = { messages := JsValue.arr ms, input := "", loading := false,
            error := surfaceCaught ne }) ∧
    (∀ (pe : String → String) (ne : JsError) (st : ClientState)
        (ms : List JsValue) (status : Nat) (body : String),
      st.messages = JsValue.arr ms → st.loading = false → jsTrimS st.input ≠ "" →
      jsonParse body.data = none →
      (sendPart pe ne st (FetchOutcome.resp status body)).state
        = { messages := JsValue.arr (ms ++ [userMsg (jsTrimS st.input)]),
            input := "", loading := false,
            error := surfaceCaught { name := "SyntaxError", message := pe body } }) ∧
    (∀ (pe : String → String) (ne : JsError) (st : ClientState)
        (ms : List JsValue) (status : Nat) (body : String),
      st.messages = JsValue.arr ms → st.loading = false → jsTrimS st.input ≠ "" →
      statusOk status = true → jsonParse body.data = some JsValue.null →
      (sendPart pe ne st (FetchOutcome.resp status body)).state
        = { messages := JsValue.arr (ms ++ [userMsg (jsTrimS st.input)]),
            input := "", loading := false,
            error := surfaceCaught ne }) := by
  refine ⟨?_, ?_, ?_, ?_⟩
  · intro pe ne st u ms status body harr hload htext hj
    rw [sendApp_active pe ne u (FetchOutcome.resp status body) harr hload htext]
    dsimp only
    rw [settleApp_parsefail pe ne _ status body hj]
    simp
  · intro pe ne st u ms status body harr hload htext hok hj
    rw [sendApp_active pe ne u (FetchOutcome.resp status body) harr hload htext]
    dsimp only
    rw [settleApp_nullbody pe ne _ status body hok hj]
    simp
  · intro pe ne st ms status body harr hload htext hj
    rw [sendPart_active pe ne (FetchOutcome.resp status body) harr hload htext]
    dsimp only
    rw [settlePart_parsefail pe ne _ status body hj]
  · intro pe ne st ms status body harr hload htext hok hj
    rw [sendPart_active pe ne (FetchOutcome.resp status body) harr hload htext]
    dsimp only
    rw [settlePart_nullbody pe ne _ status body hok hj]

/-- Witness for C10: an HTML error page (not JSON) at status 200 and a
literal `null` body at status 200 both surface the thrown message and
roll back in `App.jsx`. -/
theorem c10_bad_body_failure_path_witness :
    (sendApp (fun b => "Unexpected token < in " ++ b)
        { name := "TypeError", message := "Cannot read properties of null" }
        { messages := JsValue.arr [], input := "hi", loading := false, error := "" }
        none (FetchOutcome.resp 200 "<html>")).state
      = { messages := JsValue.arr [], input := "", loading := false,
          error := surfaceCaught
            { name := "SyntaxError", message := "Unexpected token < in " ++ "<html>" } } ∧
    (sendApp (fun b => "Unexpected token < in " ++ b)
        { name := "TypeError", message := "Cannot read properties of null" }
        { messages := JsValue.arr [], input := "hi", loading := false, error := "" }
        none (FetchOutcome.resp 200 "null")).state
      = { messages := JsValue.arr [], input := "", loading := false,
          error := surfaceCaught
            { name := "TypeError", message := "Cannot read properties of null" } } :=
  ⟨c10_bad_body_failure_path.1 (fun b => "Unexpected token < in " ++ b)
      { name := "TypeError", message := "Cannot read properties of null" }
      { messages := JsValue.arr [], input := "hi", loading := false, error := "" }
      none [] 200 "<html>" rfl rfl (by decide) rfl,
   c10_bad_body_failure_path.2.1 (fun b => "Unexpected token < in " ++ b)
      { name := "TypeError", message := "Cannot read properties of null" }
      { messages := JsValue.arr [], input := "hi", loading := false, error := "" }
      none [] 200 "null" rfl rfl (by decide) rfl rfl⟩
